import Mathlib

/-!
Shallow embedding of the brick-breaker game in `src/main.rs` (repository
osamasalem/pong).  Rust `f32` quantities are modelled as rationals `ℚ`;
`Instant` timestamps are rationals in milliseconds, frame durations `dt`
are rationals in seconds (the two kinds of quantity are never mixed in the
source).  The one irrational constant of the source, `2.0f32.sqrt()` used
to normalise the direction vector, is passed to the physics step as an
abstract parameter `s2`.  `Instant::now()` is passed in as the parameter
`now`, and the keyboard queries of `handle_input` as boolean parameters.
-/

/-- Constant `WINDOW_WIDTH` (main.rs line 7). -/
def WINDOW_WIDTH : ℚ := 1280

/-- Constant `WINDOW_HEIGHT` (main.rs line 8). -/
def WINDOW_HEIGHT : ℚ := 720

/-- Constant `PROJ_RADIUS` (main.rs line 9). -/
def PROJ_RADIUS : ℚ := 16

/-- Constant `PROJ_SPEED` (main.rs line 10). -/
def PROJ_SPEED : ℚ := 500

/-- Constant `RACKET_WIDTH = 8.0 * PROJ_RADIUS` (main.rs line 12). -/
def RACKET_WIDTH : ℚ := 8 * PROJ_RADIUS

/-- Constant `RACKET_HEIGHT` (main.rs line 13). -/
def RACKET_HEIGHT : ℚ := 16

/-- Constant `RACKET_POS_Y = WINDOW_HEIGHT - RACKET_HEIGHT * 5.0` (main.rs line 14). -/
def RACKET_POS_Y : ℚ := WINDOW_HEIGHT - RACKET_HEIGHT * 5

/-- Constant `RACKET_SPEED` (main.rs line 15). -/
def RACKET_SPEED : ℚ := 700

/-- Constant `BRICK_WIDTH = ((WINDOW_WIDTH - 5.0) / 10.0) - 5.0` (main.rs line 16). -/
def BRICK_WIDTH : ℚ := (WINDOW_WIDTH - 5) / 10 - 5

/-- Constant `BRICK_HEIGHT` (main.rs line 17). -/
def BRICK_HEIGHT : ℚ := 32

/-- Axis-aligned rectangle, mirroring raylib `ffi::Rectangle`. -/
structure Rect where
  x : ℚ
  y : ℚ
  width : ℚ
  height : ℚ
deriving DecidableEq

/-- Modelled from the spec: `check_collision_recs` (main.rs lines 37-39) wraps the
external raylib `CheckCollisionRecs`, specified in §4.1 as the standard AABB
overlap test with strict inequality on the separating axes (touching edges do
not overlap). -/
def check_collision_recs (rec1 rec2 : Rect) : Bool :=
  decide (rec1.x < rec2.x + rec2.width) && decide (rec2.x < rec1.x + rec1.width) &&
  decide (rec1.y < rec2.y + rec2.height) && decide (rec2.y < rec1.y + rec1.height)

/-- Modelled from the spec: `get_collision_recs` (main.rs lines 41-43) wraps the
external raylib `GetCollisionRec`, specified in §4.1 as returning the overlap
rectangle of two rectangles, and a rectangle with zero width/height when they
do not overlap (callers treat `width * height > 0` as the collision test). -/
def get_collision_recs (rec1 rec2 : Rect) : Rect :=
  let left := max rec1.x rec2.x
  let right := min (rec1.x + rec1.width) (rec2.x + rec2.width)
  let top := max rec1.y rec2.y
  let bottom := min (rec1.y + rec1.height) (rec2.y + rec2.height)
  if left < right ∧ top < bottom then
    ⟨left, top, right - left, bottom - top⟩
  else
    ⟨0, 0, 0, 0⟩

/-- Struct `Brick` (main.rs lines 45-49); `live` is the brick health (`usize`). -/
structure Brick where
  x : ℚ
  y : ℚ
  live : ℕ
deriving DecidableEq

/-- Struct `Projectile` (main.rs lines 51-57); the `direction: Vector2` field is
split into its two components `dirx`, `diry`. -/
structure Projectile where
  x : ℚ
  y : ℚ
  speed : ℚ
  dirx : ℚ
  diry : ℚ
  already_in_collision : Bool
deriving DecidableEq

/-- Constructor `Projectile::new` (main.rs lines 60-68). -/
def Projectile.new : Projectile where
  x := WINDOW_WIDTH / 2
  y := RACKET_POS_Y - PROJ_RADIUS - 1
  speed := PROJ_SPEED
  dirx := 1
  diry := -1
  already_in_collision := false

/-- Struct `Racket` (main.rs lines 70-73). -/
structure Racket where
  x : ℚ
  direction : ℚ
deriving DecidableEq

/-- Constructor `Racket::new` (main.rs lines 76-81). -/
def Racket.new : Racket where
  x := WINDOW_WIDTH / 2 - RACKET_WIDTH / 2
  direction := 0

/-- Enum `State` (main.rs lines 310-316); the `InitialBreak` payload is the
spawn timestamp in milliseconds. -/
inductive State where
  | Running
  | InitialBreak (t : ℚ)
  | Paused
  | Winning
  | GameOver
deriving DecidableEq

/-- Struct `Game` (main.rs lines 83-90).  The `last_frame_instant` field is
frame-loop bookkeeping read only by `main` and is not part of the simulation
state. -/
structure Game where
  bricks : List Brick
  ball : Projectile
  racket : Racket
  lives : ℕ
  state : State
deriving DecidableEq

/-- The 10 × 5 brick grid laid out by the nested loops of `Game::new`
(main.rs lines 102-110), row by row (`j` outer, `i` inner). -/
def initBricks : List Brick :=
  ((List.range 5).map fun j =>
    (List.range 10).map fun i =>
      { x := 5 + (i : ℚ) * (BRICK_WIDTH + 5)
        y := 100 + (j : ℚ) * (BRICK_HEIGHT + 5)
        live := 1 }).flatten

/-- Constructor `Game::new` (main.rs lines 93-112); `now` stands for the
`Instant::now()` stored in the initial `InitialBreak` state. -/
def Game.new (now : ℚ) : Game where
  bricks := initBricks
  ball := Projectile.new
  racket := Racket.new
  lives := 3
  state := State.InitialBreak now

/-- Method `Game::handle_input` (main.rs lines 114-154).  `left`/`right` are
`is_key_down(KEY_LEFT/RIGHT)`, `p` is `is_key_pressed(KEY_P)`, `enter` is
`is_key_pressed(KEY_ENTER)`, and `now` is `Instant::now()` in milliseconds
(both the grace-period comparison and the timestamp of a fresh game use it). -/
def Game.handle_input (g : Game) (left right p enter : Bool) (now : ℚ) : Game :=
  let g := { g with racket := { g.racket with direction := 0 } }
  let g :=
    match left, right with
    | true, false =>
      let g :=
        match g.state with
        | State.InitialBreak grace =>
          if now - grace > 500 then
            { g with ball := { g.ball with dirx := -1 }, state := State.Running }
          else g
        | _ => g
      { g with racket := { g.racket with direction := -1 } }
    | false, true =>
      let g :=
        match g.state with
        | State.InitialBreak grace =>
          if now - grace > 500 then
            { g with ball := { g.ball with dirx := 1 }, state := State.Running }
          else g
        | _ => g
      { g with racket := { g.racket with direction := 1 } }
    | _, _ => { g with racket := { g.racket with direction := 0 } }
  let g :=
    if p then
      match g.state with
      | State.Paused => { g with state := State.Running }
      | State.Running => { g with state := State.Paused }
      | _ => g
    else g
  match g.state with
  | State.Winning => if enter then Game.new now else g
  | State.GameOver => if enter then Game.new now else g
  | _ => g

/-- The bounding rectangle the physics uses for the ball
(main.rs lines 195-200 and 221-226): `Rectangle { x, y, PROJ_RADIUS, PROJ_RADIUS }`. -/
def ballRect (b : Projectile) : Rect :=
  ⟨b.x, b.y, PROJ_RADIUS, PROJ_RADIUS⟩

/-- The bounding rectangle of the racket (main.rs lines 201-206). -/
def racketRect (r : Racket) : Rect :=
  ⟨r.x, RACKET_POS_Y, RACKET_WIDTH, RACKET_HEIGHT⟩

/-- The bounding rectangle of a brick (main.rs lines 227-232). -/
def brickRect (b : Brick) : Rect :=
  ⟨b.x, b.y, BRICK_WIDTH, BRICK_HEIGHT⟩

/-- The bottom-exit check opening `Game::calculate_physics`
(main.rs lines 157-166): it runs before, and independently of, the
`Running` guard. -/
def bottomExitStep (g : Game) (now : ℚ) : Game :=
  if g.ball.y ≥ WINDOW_HEIGHT + PROJ_RADIUS then
    if g.lives = 0 then
      { g with state := State.GameOver }
    else
      { g with state := State.InitialBreak now, lives := g.lives - 1,
               ball := Projectile.new, racket := Racket.new }
  else g

/-- The top-wall check (main.rs lines 169-172): `y ≤ 0` forces `diry = 1`
and adds 2 to the speed. -/
def wallTop (b : Projectile) : Projectile :=
  if b.y ≤ 0 then { b with speed := b.speed + 2, diry := 1 } else b

/-- The left-wall check (main.rs lines 174-177): `x ≤ PROJ_RADIUS` forces
`dirx = 1` and adds 2 to the speed. -/
def wallLeft (b : Projectile) : Projectile :=
  if b.x ≤ PROJ_RADIUS then { b with speed := b.speed + 2, dirx := 1 } else b

/-- The right-wall check (main.rs lines 179-182):
`x ≥ WINDOW_WIDTH - PROJ_RADIUS` forces `dirx = -1` and adds 2 to the
speed. -/
def wallRight (b : Projectile) : Projectile :=
  if b.x ≥ WINDOW_WIDTH - PROJ_RADIUS then { b with speed := b.speed + 2, dirx := -1 } else b

/-- The three wall checks (main.rs lines 169-182), in source order: top,
left, right.  They read and write only the ball. -/
def wallBounce (b : Projectile) : Projectile :=
  wallRight (wallLeft (wallTop b))

/-- Lift of `wallBounce` to the game state. -/
def wallsStep (g : Game) : Game :=
  { g with ball := wallBounce g.ball }

/-- The racket displacement (main.rs line 184):
`x += direction * RACKET_SPEED * dt`. -/
def racketShift (dt : ℚ) (r : Racket) : Racket :=
  { r with x := r.x + r.direction * RACKET_SPEED * dt }

/-- The low clamp of the racket (main.rs lines 186-188): `x ≤ 0` resets `x`
to 0. -/
def clampLow (r : Racket) : Racket :=
  if r.x ≤ 0 then { r with x := 0 } else r

/-- The high clamp of the racket (main.rs lines 190-192):
`x ≥ WINDOW_WIDTH - RACKET_WIDTH - 0.0` resets `x` to that bound. -/
def clampHigh (r : Racket) : Racket :=
  if r.x ≥ WINDOW_WIDTH - RACKET_WIDTH - 0 then { r with x := WINDOW_WIDTH - RACKET_WIDTH - 0 }
  else r

/-- The racket displacement and clamping (main.rs lines 184-192), in source
order.  Reads and writes only the racket. -/
def movePaddleR (dt : ℚ) (r : Racket) : Racket :=
  clampHigh (clampLow (racketShift dt r))

/-- Lift of `movePaddleR` to the game state. -/
def paddleMoveStep (dt : ℚ) (g : Game) : Game :=
  { g with racket := movePaddleR dt g.racket }

/-- The debounced ball-racket collision response (main.rs lines 194-217):
on overlap onset flip `direction.y` and add 2 to the speed; the
`already_in_collision` flag is always set to the current overlap result. -/
def paddleCollStep (g : Game) : Game :=
  let collision_result := check_collision_recs (ballRect g.ball) (racketRect g.racket)
  { g with ball :=
      if collision_result then
        if !g.ball.already_in_collision then
          { g.ball with speed := g.ball.speed + 2, diry := -g.ball.diry,
                        already_in_collision := true }
        else
          { g.ball with already_in_collision := true }
      else
        { g.ball with already_in_collision := false } }

/-- The collision test of the brick loop (main.rs line 235):
`coll.width * coll.height > 0.0` on the overlap rectangle. -/
def brickHitTest (ball : Projectile) (b : Brick) : Bool :=
  let coll := get_collision_recs (ballRect ball) (brickRect b)
  decide (coll.width * coll.height > 0)

/-- The ball response to a brick hit (main.rs lines 236-245), given the
overlap rectangle: `speed += 4`, then reflect by comparing overlap width and
height. -/
def brickHit (ball : Projectile) (coll : Rect) : Projectile :=
  let ball := { ball with speed := ball.speed + 4 }
  if coll.width > coll.height then
    { ball with diry := -ball.diry }
  else if coll.width < coll.height then
    { ball with dirx := -ball.dirx }
  else
    { ball with dirx := -ball.dirx, diry := -ball.diry }

/-- The `for brick in self.bricks.iter_mut()` loop (main.rs lines 219-248):
the first brick whose overlap rectangle has positive area loses one health,
the ball responds, and the `break` stops the scan. -/
def brickLoop (ball : Projectile) : List Brick → Projectile × List Brick
  | [] => (ball, [])
  | b :: rest =>
    let coll := get_collision_recs (ballRect ball) (brickRect b)
    if coll.width * coll.height > 0 then
      (brickHit ball coll, { b with live := b.live - 1 } :: rest)
    else
      let p := brickLoop ball rest
      (p.1, b :: p.2)

/-- The brick phase of the resolver (main.rs lines 219-254): the scan loop,
then `bricks.retain(|b| b.live > 0)`, then the transition to `Winning` when
the collection is empty. -/
def bricksStep (g : Game) : Game :=
  let p := brickLoop g.ball g.bricks
  let bricks := p.2.filter fun b => decide (b.live > 0)
  { g with ball := p.1, bricks := bricks,
           state := if bricks.isEmpty then State.Winning else g.state }

/-- The ball position integration (main.rs lines 256-259):
`x += dirx * speed / sqrt 2 * dt` and likewise for `y`; `s2` stands for the
source constant `2.0f32.sqrt()`. -/
def integrateBall (dt s2 : ℚ) (g : Game) : Game :=
  { g with ball := { g.ball with
      x := g.ball.x + g.ball.dirx * g.ball.speed / s2 * dt,
      y := g.ball.y + g.ball.diry * g.ball.speed / s2 * dt } }

/-- Method `Game::calculate_physics` (main.rs lines 156-261): the bottom-exit
check runs unconditionally, then, only if the (possibly updated) state is
`Running`, the physics sub-steps run in source order: walls, racket
displacement, debounced racket collision, brick scan, position integration.
`dt` is `duration.as_secs_f32()`, `now` is `Instant::now()`, `s2` is
`2.0f32.sqrt()`. -/
def Game.calculate_physics (g : Game) (dt now s2 : ℚ) : Game :=
  let g := bottomExitStep g now
  match g.state with
  | State.Running =>
    integrateBall dt s2 (bricksStep (paddleCollStep (paddleMoveStep dt (wallsStep g))))
  | _ => g

/-- The Collision Resolver of spec §4.4, as the spec orders it: walls, then
the debounced racket collision, then the brick scan with removal and the
`Winning` transition.  Used to compare the spec's stated frame order with the
source's. -/
def resolveCollisions (g : Game) : Game :=
  bricksStep (paddleCollStep (wallsStep g))

/-- One observable step of the program loop (main.rs lines 338-347): an
input-handling call or a physics call. -/
inductive Step : Game → Game → Prop where
  | input (g : Game) (left right p enter : Bool) (now : ℚ) :
      Step g (g.handle_input left right p enter now)
  | physics (g : Game) (dt now s2 : ℚ) :
      Step g (g.calculate_physics dt now s2)

/-- The states the program can reach: a fresh game followed by any sequence
of input and physics steps. -/
inductive Reachable : Game → Prop where
  | new (now : ℚ) : Reachable (Game.new now)
  | step {g g' : Game} : Reachable g → Step g g' → Reachable g'

/-- Both direction components are exactly plus or minus one. -/
def dirUnit (b : Projectile) : Prop :=
  (b.dirx = 1 ∨ b.dirx = -1) ∧ (b.diry = 1 ∨ b.diry = -1)

/-- The racket is inside the window. -/
def paddleOK (g : Game) : Prop :=
  0 ≤ g.racket.x ∧ g.racket.x ≤ WINDOW_WIDTH - RACKET_WIDTH

/-- Every brick still in the collection has health exactly 1. -/
def bricksOK (g : Game) : Prop :=
  ∀ b ∈ g.bricks, b.live = 1

/-- Concrete running game used by the C1 witness. -/
def gRunning : Game :=
  { Game.new 0 with state := State.Running }

/-- Concrete state with the ball below the bottom boundary, for the C3
witness. -/
def gFallen : Game :=
  { Game.new 0 with ball := { Projectile.new with y := 800 } }

/-- The brick hit by the C2 witness. -/
def bHit : Brick := ⟨5, 100, 1⟩

/-- Concrete running game whose ball overlaps its single brick, for the C2
witness. -/
def gBrick : Game :=
  { Game.new 0 with state := State.Running, bricks := [bHit],
                    ball := { Projectile.new with x := 6, y := 101 } }

/-- The first brick of the initial grid, used by the C9 witness. -/
def bFirst : Brick :=
  { x := 5 + ((0 : ℕ) : ℚ) * (BRICK_WIDTH + 5)
    y := 100 + ((0 : ℕ) : ℚ) * (BRICK_HEIGHT + 5)
    live := 1 }

/-! ## Frame order (C1) -/

/-- C1: in a per-frame update whose phase is `Running` (and on which the
bottom-exit guard does not fire), the update equals the composition
integrate after resolveCollisions after paddle move, as spec §4.5 orders the
operations. -/
theorem C1_running_frame_is_composition (g : Game) (dt now s2 : ℚ)
    (hrun : g.state = State.Running)
    (hy : ¬ g.ball.y ≥ WINDOW_HEIGHT + PROJ_RADIUS) :
    g.calculate_physics dt now s2 =
      integrateBall dt s2 (resolveCollisions (paddleMoveStep dt g)) := by
  rcases g with ⟨bricks, ball, racket, lives, state⟩
  dsimp only at hrun hy
  subst hrun
  unfold Game.calculate_physics bottomExitStep
  dsimp only
  rw [if_neg hy]
  rfl

/-- Witness for C1 at a concrete running state. -/
theorem C1_witness :
    gRunning.calculate_physics 1 0 2 =
      integrateBall 1 2 (resolveCollisions (paddleMoveStep 1 gRunning)) :=
  C1_running_frame_is_composition gRunning 1 0 2 rfl
    (by norm_num [gRunning, Game.new, Projectile.new, RACKET_POS_Y, RACKET_HEIGHT,
                  WINDOW_HEIGHT, PROJ_RADIUS])

/-! ## Bottom-exit check (C3) -/

/-- C3: whatever the phase, whenever `ball.y ≥ WINDOW_HEIGHT + PROJ_RADIUS`
the frame update decrements a remaining life, moves to `InitialBreak now` and
recreates ball and racket, or — when no life remains — moves to `GameOver`
leaving `lives` at 0. -/
theorem C3_bottom_exit (g : Game) (dt now s2 : ℚ)
    (hy : g.ball.y ≥ WINDOW_HEIGHT + PROJ_RADIUS) :
    g.calculate_physics dt now s2 =
      if g.lives = 0 then
        { g with state := State.GameOver }
      else
        { g with state := State.InitialBreak now, lives := g.lives - 1,
                 ball := Projectile.new, racket := Racket.new } := by
  rcases g with ⟨bricks, ball, racket, lives, state⟩
  dsimp only at hy
  unfold Game.calculate_physics bottomExitStep
  dsimp only
  rw [if_pos hy]
  by_cases h0 : lives = 0
  · rw [if_pos h0]
  · rw [if_neg h0]

/-- Witness for C3 at a concrete fallen-ball state. -/
theorem C3_witness :
    gFallen.calculate_physics 1 7 2 =
      if gFallen.lives = 0 then
        { gFallen with state := State.GameOver }
      else
        { gFallen with state := State.InitialBreak 7, lives := gFallen.lives - 1,
                       ball := Projectile.new, racket := Racket.new } :=
  C3_bottom_exit gFallen 1 7 2
    (by norm_num [gFallen, Game.new, Projectile.new, WINDOW_HEIGHT, PROJ_RADIUS])

/-! ## Launch from InitialBreak (C4) -/

/-- C4: with exactly one directional key down (`left` true means LEFT,
false means RIGHT) and phase `InitialBreak t0`, input handling launches the
ball (sets `dirx` to the pressed direction and the phase to `Running`) in one
step exactly when more than 500 ms have elapsed; otherwise it only sets the
racket direction, leaving phase and ball untouched. -/
theorem C4_initial_break_launch (g : Game) (t0 now : ℚ) (left : Bool)
    (hst : g.state = State.InitialBreak t0) :
    if now - t0 > 500 then
      g.handle_input left (!left) false false now =
        { g with ball := { g.ball with dirx := if left then -1 else 1 },
                 state := State.Running,
                 racket := { g.racket with direction := if left then -1 else 1 } }
    else
      g.handle_input left (!left) false false now =
        { g with racket := { g.racket with direction := if left then -1 else 1 } } := by
  rcases g with ⟨bricks, ball, racket, lives, state⟩
  simp only at hst
  subst hst
  by_cases hg : now - t0 > 500
  · rw [if_pos hg]
    cases left <;> simp [Game.handle_input, hg]
  · rw [if_neg hg]
    cases left <;> simp [Game.handle_input, hg]

/-- Witness for C4: LEFT pressed on a fresh game before the grace period has
elapsed. -/
theorem C4_witness :
    if (0 : ℚ) - 0 > 500 then
      (Game.new 0).handle_input true (!true) false false 0 =
        { Game.new 0 with
            ball := { (Game.new 0).ball with dirx := if true then -1 else 1 },
            state := State.Running,
            racket := { (Game.new 0).racket with direction := if true then -1 else 1 } }
    else
      (Game.new 0).handle_input true (!true) false false 0 =
        { Game.new 0 with
            racket := { (Game.new 0).racket with direction := if true then -1 else 1 } } :=
  C4_initial_break_launch (Game.new 0) 0 0 true rfl

/-! ## Debounced racket collision (C5) -/

/-- C5: the racket-collision step negates `diry` and adds 2 to the speed
exactly when the ball overlaps the racket and the debounce flag was not
set; it never touches position or `dirx`; and it always stores the current
overlap result in the debounce flag. -/
theorem C5_paddle_debounce (g : Game) :
    (paddleCollStep g).ball.already_in_collision
        = check_collision_recs (ballRect g.ball) (racketRect g.racket)
    ∧ (paddleCollStep g).ball.speed =
        (if check_collision_recs (ballRect g.ball) (racketRect g.racket)
            && !g.ball.already_in_collision
         then g.ball.speed + 2 else g.ball.speed)
    ∧ (paddleCollStep g).ball.diry =
        (if check_collision_recs (ballRect g.ball) (racketRect g.racket)
            && !g.ball.already_in_collision
         then -g.ball.diry else g.ball.diry)
    ∧ (paddleCollStep g).ball.dirx = g.ball.dirx
    ∧ (paddleCollStep g).ball.x = g.ball.x
    ∧ (paddleCollStep g).ball.y = g.ball.y := by
  unfold paddleCollStep
  cases hc : check_collision_recs (ballRect g.ball) (racketRect g.racket) <;>
    cases ha : g.ball.already_in_collision <;>
      simp [hc, ha]

/-! ## Both-or-neither directional keys (C10) -/

/-- C10: when both directional keys (or neither) are down and no other key
fires, input handling only zeroes the racket direction: the phase and the
ball — in particular its direction — are unchanged, even in `InitialBreak`
past the grace period. -/
theorem C10_both_or_neither_keys (g : Game) (l r : Bool) (now : ℚ)
    (h : l = r) :
    g.handle_input l r false false now =
      { g with racket := { g.racket with direction := 0 } } := by
  subst h
  rcases g with ⟨bricks, ball, racket, lives, state⟩
  cases l <;> cases state <;> rfl

/-- Witness for C10 with no key held on a fresh game. -/
theorem C10_witness :
    (Game.new 0).handle_input false false false false 0 =
      { Game.new 0 with racket := { (Game.new 0).racket with direction := 0 } } :=
  C10_both_or_neither_keys (Game.new 0) false false 0 rfl

/-! ## Brick scan (C2) -/

/-- The scan loop stops at the first hit brick: with no hit in `pre` and a
hit on `b`, it returns the responded ball and decrements only `b`. -/
theorem brickLoop_split (ball : Projectile) (pre post : List Brick) (b : Brick)
    (hpre : ∀ b0 ∈ pre, brickHitTest ball b0 = false)
    (hhit : brickHitTest ball b = true) :
    brickLoop ball (pre ++ b :: post) =
      (brickHit ball (get_collision_recs (ballRect ball) (brickRect b)),
       pre ++ { b with live := b.live - 1 } :: post) := by
  induction pre with
  | nil =>
    unfold brickHitTest at hhit
    simp only [decide_eq_true_eq] at hhit
    simp only [List.nil_append, brickLoop]
    rw [if_pos hhit]
  | cons a pre ih =>
    have ha : brickHitTest ball a = false := hpre a (by simp)
    have hpre2 : ∀ b0 ∈ pre, brickHitTest ball b0 = false := fun b0 hb0 =>
      hpre b0 (by simp [hb0])
    unfold brickHitTest at ha
    simp only [decide_eq_false_iff_not] at ha
    simp only [List.cons_append, brickLoop, List.append_eq]
    rw [if_neg ha, ih hpre2]

/-- Field-by-field description of the ball response to a brick hit:
`speed + 4`, `diry` flipped when the overlap is at least as wide as tall,
`dirx` flipped when it is at most as wide as tall, the rest untouched. -/
theorem brickHit_fields (ball : Projectile) (coll : Rect) :
    (brickHit ball coll).speed = ball.speed + 4
    ∧ (brickHit ball coll).diry =
        (if coll.height ≤ coll.width then -ball.diry else ball.diry)
    ∧ (brickHit ball coll).dirx =
        (if coll.width ≤ coll.height then -ball.dirx else ball.dirx)
    ∧ (brickHit ball coll).x = ball.x
    ∧ (brickHit ball coll).y = ball.y
    ∧ (brickHit ball coll).already_in_collision = ball.already_in_collision := by
  unfold brickHit
  rcases lt_trichotomy coll.width coll.height with h | h | h
  · rw [if_neg (lt_asymm h), if_pos h]
    simp [le_of_lt h, not_le.mpr h]
  · rw [h]
    simp
  · rw [if_pos h]
    simp [le_of_lt h, not_le.mpr h]

/-- C2: when the ball overlaps no brick of `pre` and overlaps `b`, the brick
phase adds exactly 4 to the speed, reflects the ball by comparing overlap
width and height, decrements only the health of `b`, removes the
zero-health bricks keeping the survivors in order, leaves every other brick
as it was, and moves to `Winning` exactly when no brick survives. -/
theorem C2_first_brick_hit (g : Game) (pre post : List Brick) (b : Brick)
    (hsplit : g.bricks = pre ++ b :: post)
    (hpre : ∀ b0 ∈ pre, brickHitTest g.ball b0 = false)
    (hhit : brickHitTest g.ball b = true) :
    (bricksStep g).ball.speed = g.ball.speed + 4
    ∧ (bricksStep g).ball.diry =
        (if (get_collision_recs (ballRect g.ball) (brickRect b)).height ≤
            (get_collision_recs (ballRect g.ball) (brickRect b)).width
         then -g.ball.diry else g.ball.diry)
    ∧ (bricksStep g).ball.dirx =
        (if (get_collision_recs (ballRect g.ball) (brickRect b)).width ≤
            (get_collision_recs (ballRect g.ball) (brickRect b)).height
         then -g.ball.dirx else g.ball.dirx)
    ∧ (bricksStep g).ball.x = g.ball.x
    ∧ (bricksStep g).ball.y = g.ball.y
    ∧ (bricksStep g).ball.already_in_collision = g.ball.already_in_collision
    ∧ (bricksStep g).bricks =
        (pre.filter fun b0 => decide (b0.live > 0)) ++
        (if 0 < b.live - 1 then [{ b with live := b.live - 1 }] else []) ++
        (post.filter fun b0 => decide (b0.live > 0))
    ∧ (bricksStep g).state =
        (if (bricksStep g).bricks.isEmpty then State.Winning else g.state)
    ∧ (bricksStep g).racket = g.racket
    ∧ (bricksStep g).lives = g.lives := by
  obtain ⟨hsp, hdy, hdx, hx, hy2, hflag⟩ :=
    brickHit_fields g.ball (get_collision_recs (ballRect g.ball) (brickRect b))
  have hbricks :
      ((pre ++ { b with live := b.live - 1 } :: post).filter
          fun b0 => decide (b0.live > 0)) =
        (pre.filter fun b0 => decide (b0.live > 0)) ++
        (if 0 < b.live - 1 then [{ b with live := b.live - 1 }] else []) ++
        (post.filter fun b0 => decide (b0.live > 0)) := by
    rw [List.filter_append, List.filter_cons]
    by_cases hbl : 0 < b.live - 1
    · simp [hbl]
    · simp [hbl]
  unfold bricksStep
  rw [hsplit, brickLoop_split g.ball pre post b hpre hhit]
  dsimp only
  rw [hbricks]
  exact ⟨hsp, hdy, hdx, hx, hy2, hflag, rfl, rfl, rfl, rfl⟩

/-- Witness for C2 at a concrete overlap. -/
theorem C2_witness :
    (bricksStep gBrick).ball.speed = gBrick.ball.speed + 4
    ∧ (bricksStep gBrick).ball.diry =
        (if (get_collision_recs (ballRect gBrick.ball) (brickRect bHit)).height ≤
            (get_collision_recs (ballRect gBrick.ball) (brickRect bHit)).width
         then -gBrick.ball.diry else gBrick.ball.diry)
    ∧ (bricksStep gBrick).ball.dirx =
        (if (get_collision_recs (ballRect gBrick.ball) (brickRect bHit)).width ≤
            (get_collision_recs (ballRect gBrick.ball) (brickRect bHit)).height
         then -gBrick.ball.dirx else gBrick.ball.dirx)
    ∧ (bricksStep gBrick).ball.x = gBrick.ball.x
    ∧ (bricksStep gBrick).ball.y = gBrick.ball.y
    ∧ (bricksStep gBrick).ball.already_in_collision = gBrick.ball.already_in_collision
    ∧ (bricksStep gBrick).bricks =
        (List.filter (fun b0 => decide (b0.live > 0)) []) ++
        (if 0 < bHit.live - 1 then [{ bHit with live := bHit.live - 1 }] else []) ++
        (List.filter (fun b0 => decide (b0.live > 0)) [])
    ∧ (bricksStep gBrick).state =
        (if (bricksStep gBrick).bricks.isEmpty then State.Winning else gBrick.state)
    ∧ (bricksStep gBrick).racket = gBrick.racket
    ∧ (bricksStep gBrick).lives = gBrick.lives :=
  C2_first_brick_hit gBrick [] [] bHit rfl (by simp)
    (by norm_num [brickHitTest, get_collision_recs, ballRect, brickRect, bHit, gBrick,
                  Game.new, Projectile.new, BRICK_WIDTH, BRICK_HEIGHT, WINDOW_WIDTH,
                  PROJ_RADIUS, max_def, min_def])

/-! ## Case-analysis combinators for the two step functions -/

/-- The bottom-exit check yields one of three states: unchanged, `GameOver`,
or a life-loss reset. -/
theorem bottomExitStep_cases (g : Game) (now : ℚ) (P : Game → Prop)
    (h1 : P g)
    (h2 : P { g with state := State.GameOver })
    (h3 : P { g with state := State.InitialBreak now, lives := g.lives - 1,
                     ball := Projectile.new, racket := Racket.new }) :
    P (bottomExitStep g now) := by
  unfold bottomExitStep
  split_ifs <;> assumption

/-- If the state after the bottom-exit check is `Running` then the check did
not fire. -/
theorem bottomExitStep_running (g : Game) (now : ℚ)
    (h : (bottomExitStep g now).state = State.Running) :
    bottomExitStep g now = g := by
  unfold bottomExitStep at h ⊢
  by_cases h1 : g.ball.y ≥ WINDOW_HEIGHT + PROJ_RADIUS
  · rw [if_pos h1] at h ⊢
    by_cases h2 : g.lives = 0
    · rw [if_pos h2] at h
      exact absurd h (by simp)
    · rw [if_neg h2] at h
      exact absurd h (by simp)
  · rw [if_neg h1]

/-- A physics frame is the bottom-exit result, or — when that result is
still `Running` — the full sub-step chain applied to it. -/
theorem calculate_physics_cases (g : Game) (dt now s2 : ℚ) (P : Game → Prop)
    (h1 : P (bottomExitStep g now))
    (h2 : (bottomExitStep g now).state = State.Running →
        P (integrateBall dt s2 (bricksStep (paddleCollStep (paddleMoveStep dt
            (wallsStep (bottomExitStep g now))))))) :
    P (g.calculate_physics dt now s2) := by
  unfold Game.calculate_physics
  rcases hgb : bottomExitStep g now with ⟨bricks, ball, racket, lives, state⟩
  rw [hgb] at h1 h2
  cases state
  · exact h2 rfl
  · exact h1
  · exact h1
  · exact h1
  · exact h1

/-- Input handling either resets the whole aggregate to a fresh game, or
only writes the racket direction, possibly the ball launch direction
(to plus or minus 1), and the phase. -/
theorem handle_input_cases (g : Game) (l r p e : Bool) (now : ℚ) (P : Game → Prop)
    (hnew : P (Game.new now))
    (hmod : ∀ dx st rd, dx = g.ball.dirx ∨ dx = -1 ∨ dx = 1 →
        P { g with ball := { g.ball with dirx := dx }, state := st,
                   racket := { g.racket with direction := rd } }) :
    P (g.handle_input l r p e now) := by
  rcases g with ⟨bricks, ball, racket, lives, state⟩
  rcases ball with ⟨bx, bY, bs, bdx, bdy, bc⟩
  rcases racket with ⟨rx, rd0⟩
  cases l <;> cases r <;> cases p <;> cases e <;> cases state <;>
    simp only [Game.handle_input] <;>
    (try split_ifs) <;>
    first
      | exact hnew
      | exact hmod _ _ _ (Or.inl rfl)
      | exact hmod _ _ _ (Or.inr (Or.inl rfl))
      | exact hmod _ _ _ (Or.inr (Or.inr rfl))

/-! ## Direction invariant (C6) -/

/-- Negation keeps a component in the set of plus and minus one. -/
theorem neg_pm (q : ℚ) (h : q = 1 ∨ q = -1) : -q = 1 ∨ -q = -1 := by
  rcases h with h | h <;> simp [h]

/-- A fresh ball has unit direction components. -/
theorem dirUnit_new : dirUnit Projectile.new :=
  ⟨Or.inl rfl, Or.inr rfl⟩

/-- The wall checks keep the direction components in the unit set. -/
theorem dirUnit_wallBounce (b : Projectile) (h : dirUnit b) :
    dirUnit (wallBounce b) := by
  obtain ⟨hx, hy⟩ := h
  have h1 : dirUnit (wallTop b) := by
    unfold wallTop
    split_ifs
    · exact ⟨hx, Or.inl rfl⟩
    · exact ⟨hx, hy⟩
  have h2 : dirUnit (wallLeft (wallTop b)) := by
    unfold wallLeft
    split_ifs
    · exact ⟨Or.inl rfl, h1.2⟩
    · exact h1
  unfold wallBounce wallRight
  split_ifs
  · exact ⟨Or.inr rfl, h2.2⟩
  · exact h2

/-- The brick response keeps the direction components in the unit set. -/
theorem dirUnit_brickHit (b : Projectile) (coll : Rect) (h : dirUnit b) :
    dirUnit (brickHit b coll) := by
  obtain ⟨hx, hy⟩ := h
  unfold brickHit
  split_ifs
  · exact ⟨hx, neg_pm _ hy⟩
  · exact ⟨neg_pm _ hx, hy⟩
  · exact ⟨neg_pm _ hx, neg_pm _ hy⟩

/-- The brick scan loop keeps the direction components in the unit set. -/
theorem dirUnit_brickLoop (ball : Projectile) (bs : List Brick) (h : dirUnit ball) :
    dirUnit (brickLoop ball bs).1 := by
  induction bs with
  | nil => exact h
  | cons b rest ih =>
    unfold brickLoop
    dsimp only
    split_ifs
    · exact dirUnit_brickHit _ _ h
    · exact ih

/-- The debounced racket collision keeps the direction components in the
unit set. -/
theorem dirUnit_paddleCollStep (g : Game) (h : dirUnit g.ball) :
    dirUnit (paddleCollStep g).ball := by
  obtain ⟨hx, hy⟩ := h
  unfold paddleCollStep
  dsimp only
  split_ifs
  · exact ⟨hx, neg_pm _ hy⟩
  · exact ⟨hx, hy⟩
  · exact ⟨hx, hy⟩

/-- A physics frame keeps the direction components in the unit set. -/
theorem dirUnit_physics (g : Game) (dt now s2 : ℚ) (h : dirUnit g.ball) :
    dirUnit (g.calculate_physics dt now s2).ball := by
  have hb : dirUnit (bottomExitStep g now).ball :=
    bottomExitStep_cases g now (fun g0 => dirUnit g0.ball) h h dirUnit_new
  apply calculate_physics_cases g dt now s2 (fun g0 => dirUnit g0.ball)
  · exact hb
  · intro hrun
    have h1 : dirUnit (wallsStep (bottomExitStep g now)).ball := dirUnit_wallBounce _ hb
    have h2 : dirUnit (paddleCollStep (paddleMoveStep dt (wallsStep (bottomExitStep g now)))).ball :=
      dirUnit_paddleCollStep _ h1
    exact dirUnit_brickLoop _ _ h2

/-- An input step keeps the direction components in the unit set. -/
theorem dirUnit_input (g : Game) (l r p e : Bool) (now : ℚ) (h : dirUnit g.ball) :
    dirUnit (g.handle_input l r p e now).ball := by
  apply handle_input_cases g l r p e now (fun g0 => dirUnit g0.ball)
  · exact dirUnit_new
  · intro dx st rd hdx
    refine ⟨?_, h.2⟩
    rcases hdx with h1 | h1 | h1
    · rw [h1]
      exact h.1
    · rw [h1]
      exact Or.inr rfl
    · rw [h1]
      exact Or.inl rfl

/-- Every reachable state has unit direction components. -/
theorem reachable_dirUnit (g : Game) (h : Reachable g) : dirUnit g.ball := by
  induction h with
  | new now => exact dirUnit_new
  | step hg hs ih =>
    cases hs with
    | input l r p e now => exact dirUnit_input _ l r p e now ih
    | physics dt now s2 => exact dirUnit_physics _ dt now s2 ih

/-- C6: in every reachable state both components of the ball direction are
exactly plus or minus one, never zero, and the squared magnitude of the raw
direction vector is 2 (magnitude the square root of 2). -/
theorem C6_direction_always_unit (g : Game) (h : Reachable g) :
    (g.ball.dirx = 1 ∨ g.ball.dirx = -1)
    ∧ (g.ball.diry = 1 ∨ g.ball.diry = -1)
    ∧ g.ball.dirx ≠ 0 ∧ g.ball.diry ≠ 0
    ∧ g.ball.dirx ^ 2 + g.ball.diry ^ 2 = 2 := by
  obtain ⟨hx, hy⟩ := reachable_dirUnit g h
  refine ⟨hx, hy, ?_, ?_, ?_⟩
  · rcases hx with h1 | h1 <;> rw [h1] <;> norm_num
  · rcases hy with h2 | h2 <;> rw [h2] <;> norm_num
  · rcases hx with h1 | h1 <;> rcases hy with h2 | h2 <;> rw [h1, h2] <;> norm_num

/-- Witness for C6 at the initial state. -/
theorem C6_witness :
    ((Game.new 0).ball.dirx = 1 ∨ (Game.new 0).ball.dirx = -1)
    ∧ ((Game.new 0).ball.diry = 1 ∨ (Game.new 0).ball.diry = -1)
    ∧ (Game.new 0).ball.dirx ≠ 0 ∧ (Game.new 0).ball.diry ≠ 0
    ∧ (Game.new 0).ball.dirx ^ 2 + (Game.new 0).ball.diry ^ 2 = 2 :=
  C6_direction_always_unit (Game.new 0) (Reachable.new 0)

/-! ## Speed monotonicity (C7) -/

/-- The wall checks never decrease the speed. -/
theorem wallBounce_speed_le (b : Projectile) : b.speed ≤ (wallBounce b).speed := by
  have h1 : b.speed ≤ (wallTop b).speed := by
    unfold wallTop
    split_ifs <;> first | linarith | (dsimp only; linarith)
  have h2 : (wallTop b).speed ≤ (wallLeft (wallTop b)).speed := by
    unfold wallLeft
    split_ifs <;> first | linarith | (dsimp only; linarith)
  have h3 : (wallLeft (wallTop b)).speed ≤ (wallRight (wallLeft (wallTop b))).speed := by
    unfold wallRight
    split_ifs <;> first | linarith | (dsimp only; linarith)
  exact le_trans h1 (le_trans h2 h3)

/-- The debounced racket collision never decreases the speed. -/
theorem paddleCollStep_speed_le (g : Game) : g.ball.speed ≤ (paddleCollStep g).ball.speed := by
  unfold paddleCollStep
  dsimp only
  split_ifs <;> dsimp only <;> linarith

/-- The brick scan loop never decreases the speed. -/
theorem brickLoop_speed_le (ball : Projectile) (bs : List Brick) :
    ball.speed ≤ (brickLoop ball bs).1.speed := by
  induction bs with
  | nil => exact le_refl _
  | cons b rest ih =>
    unfold brickLoop
    dsimp only
    split_ifs
    · rw [(brickHit_fields ball _).1]
      linarith
    · exact ih

/-- The whole Running-frame sub-step chain never decreases the speed. -/
theorem chain_speed_le (g : Game) (dt s2 : ℚ) :
    g.ball.speed ≤
      (integrateBall dt s2 (bricksStep (paddleCollStep (paddleMoveStep dt
        (wallsStep g))))).ball.speed := by
  have h1 : g.ball.speed ≤ (wallBounce g.ball).speed := wallBounce_speed_le g.ball
  have h2 : (paddleMoveStep dt (wallsStep g)).ball.speed ≤
      (paddleCollStep (paddleMoveStep dt (wallsStep g))).ball.speed :=
    paddleCollStep_speed_le _
  have h3 : (paddleCollStep (paddleMoveStep dt (wallsStep g))).ball.speed ≤
      (brickLoop (paddleCollStep (paddleMoveStep dt (wallsStep g))).ball
        (paddleCollStep (paddleMoveStep dt (wallsStep g))).bricks).1.speed :=
    brickLoop_speed_le _ _
  exact le_trans h1 (le_trans h2 h3)

/-- C7: any single loop step either keeps the ball and leaves its speed at
least what it was, or replaces the ball by the fresh constructor default
(life-loss respawn inside physics, or the whole-game reset on confirm). -/
theorem C7_speed_monotone (g g' : Game) (h : Step g g') :
    g.ball.speed ≤ g'.ball.speed ∨ g'.ball = Projectile.new := by
  cases h with
  | input l r p e now =>
    apply handle_input_cases g l r p e now
      (fun g0 => g.ball.speed ≤ g0.ball.speed ∨ g0.ball = Projectile.new)
    · exact Or.inr rfl
    · intro dx st rd hdx
      exact Or.inl (le_refl _)
  | physics dt now s2 =>
    apply calculate_physics_cases g dt now s2
      (fun g0 => g.ball.speed ≤ g0.ball.speed ∨ g0.ball = Projectile.new)
    · exact bottomExitStep_cases g now
        (fun g0 => g.ball.speed ≤ g0.ball.speed ∨ g0.ball = Projectile.new)
        (Or.inl (le_refl _)) (Or.inl (le_refl _)) (Or.inr rfl)
    · intro hrun
      rw [bottomExitStep_running g now hrun]
      exact Or.inl (chain_speed_le g dt s2)

/-- Witness for C7 on a concrete input step from the initial state. -/
theorem C7_witness :
    (Game.new 0).ball.speed ≤ ((Game.new 0).handle_input false false false false 0).ball.speed
    ∨ ((Game.new 0).handle_input false false false false 0).ball = Projectile.new :=
  C7_speed_monotone (Game.new 0) ((Game.new 0).handle_input false false false false 0)
    (Step.input (Game.new 0) false false false false 0)

/-! ## Paddle clamped to the window (C8) -/

/-- The low clamp leaves a nonnegative coordinate. -/
theorem clampLow_nonneg (r : Racket) : 0 ≤ (clampLow r).x := by
  unfold clampLow
  split_ifs with h
  · exact le_refl _
  · exact le_of_lt (not_le.mp h)

/-- The high clamp leaves a coordinate at most the right bound. -/
theorem clampHigh_le (r : Racket) : (clampHigh r).x ≤ WINDOW_WIDTH - RACKET_WIDTH := by
  unfold clampHigh
  split_ifs with h
  · dsimp only
    linarith
  · have := not_le.mp h
    linarith

/-- The high clamp keeps a nonnegative coordinate nonnegative. -/
theorem clampHigh_nonneg (r : Racket) (h : 0 ≤ r.x) : 0 ≤ (clampHigh r).x := by
  unfold clampHigh
  split_ifs with h1
  · dsimp only
    norm_num [WINDOW_WIDTH, RACKET_WIDTH, PROJ_RADIUS]
  · exact h

/-- After its displacement and the two clamps the racket always sits inside
the window, whatever its starting point. -/
theorem movePaddleR_bounds (dt : ℚ) (r : Racket) :
    0 ≤ (movePaddleR dt r).x ∧ (movePaddleR dt r).x ≤ WINDOW_WIDTH - RACKET_WIDTH :=
  ⟨clampHigh_nonneg _ (clampLow_nonneg _), clampHigh_le _⟩

/-- A fresh racket sits inside the window. -/
theorem paddleOK_new (now : ℚ) : paddleOK (Game.new now) := by
  constructor <;>
    norm_num [Game.new, Racket.new, WINDOW_WIDTH, RACKET_WIDTH, PROJ_RADIUS]

/-- A physics frame keeps the racket inside the window. -/
theorem paddleOK_physics (g : Game) (dt now s2 : ℚ) (h : paddleOK g) :
    paddleOK (g.calculate_physics dt now s2) := by
  have hb : paddleOK (bottomExitStep g now) := by
    apply bottomExitStep_cases g now paddleOK h h
    constructor <;> norm_num [Racket.new, WINDOW_WIDTH, RACKET_WIDTH, PROJ_RADIUS]
  apply calculate_physics_cases g dt now s2 paddleOK hb
  intro hrun
  exact movePaddleR_bounds dt (wallsStep (bottomExitStep g now)).racket

/-- An input step keeps the racket inside the window. -/
theorem paddleOK_input (g : Game) (l r p e : Bool) (now : ℚ) (h : paddleOK g) :
    paddleOK (g.handle_input l r p e now) := by
  apply handle_input_cases g l r p e now paddleOK (paddleOK_new now)
  intro dx st rd hdx
  exact h

/-- Every reachable state has its racket inside the window. -/
theorem reachable_paddleOK (g : Game) (h : Reachable g) : paddleOK g := by
  induction h with
  | new now => exact paddleOK_new now
  | step hg hs ih =>
    cases hs with
    | input l r p e now => exact paddleOK_input _ l r p e now ih
    | physics dt now s2 => exact paddleOK_physics _ dt now s2 ih

/-- C8: in every reachable state the racket coordinate lies within
`[0, WINDOW_WIDTH - RACKET_WIDTH]`. -/
theorem C8_paddle_in_bounds (g : Game) (h : Reachable g) :
    0 ≤ g.racket.x ∧ g.racket.x ≤ WINDOW_WIDTH - RACKET_WIDTH :=
  reachable_paddleOK g h

/-- Witness for C8 at the initial state. -/
theorem C8_witness :
    0 ≤ (Game.new 0).racket.x ∧ (Game.new 0).racket.x ≤ WINDOW_WIDTH - RACKET_WIDTH :=
  C8_paddle_in_bounds (Game.new 0) (Reachable.new 0)

/-! ## Brick health bounds (C9) -/

/-- Every brick of the initial grid has health 1. -/
theorem initBricks_live (b : Brick) (hb : b ∈ initBricks) : b.live = 1 := by
  unfold initBricks at hb
  simp only [List.mem_flatten, List.mem_map, List.mem_range] at hb
  obtain ⟨l, ⟨j, hj, rfl⟩, hbl⟩ := hb
  simp only [List.mem_map, List.mem_range] at hbl
  obtain ⟨i, hi, rfl⟩ := hbl
  rfl

/-- Every brick the scan loop returns is a brick of the input list, or that
brick with its health decremented by one. -/
theorem brickLoop_mem (ball : Projectile) (bs : List Brick) (b : Brick)
    (hb : b ∈ (brickLoop ball bs).2) :
    b ∈ bs ∨ ∃ b0 ∈ bs, b = { b0 with live := b0.live - 1 } := by
  induction bs with
  | nil =>
    simp [brickLoop] at hb
  | cons a rest ih =>
    unfold brickLoop at hb
    dsimp only at hb
    split_ifs at hb with hc
    · rcases List.mem_cons.mp hb with h1 | h1
      · exact Or.inr ⟨a, List.mem_cons_self a rest, h1⟩
      · exact Or.inl (List.mem_cons_of_mem a h1)
    · rcases List.mem_cons.mp hb with h1 | h1
      · exact Or.inl (by rw [h1]; exact List.mem_cons_self a rest)
      · rcases ih h1 with h2 | ⟨b0, hb0, h2⟩
        · exact Or.inl (List.mem_cons_of_mem a h2)
        · exact Or.inr ⟨b0, List.mem_cons_of_mem a hb0, h2⟩

/-- The brick phase keeps every surviving brick at health 1 when every brick
had health 1 before it. -/
theorem bricksStep_live (g : Game) (h : bricksOK g) : bricksOK (bricksStep g) := by
  intro b hb
  unfold bricksStep at hb
  dsimp only at hb
  rw [List.mem_filter] at hb
  obtain ⟨hmem, hpos⟩ := hb
  rcases brickLoop_mem g.ball g.bricks b hmem with h1 | ⟨b0, hb0, rfl⟩
  · exact h b h1
  · have h0 := h b0 hb0
    simp only [decide_eq_true_eq] at hpos
    omega

/-- A physics frame keeps every brick at health 1. -/
theorem bricksOK_physics (g : Game) (dt now s2 : ℚ) (h : bricksOK g) :
    bricksOK (g.calculate_physics dt now s2) := by
  have hb : bricksOK (bottomExitStep g now) :=
    bottomExitStep_cases g now bricksOK h h h
  apply calculate_physics_cases g dt now s2 bricksOK hb
  intro hrun
  exact bricksStep_live _ hb

/-- An input step keeps every brick at health 1. -/
theorem bricksOK_input (g : Game) (l r p e : Bool) (now : ℚ) (h : bricksOK g) :
    bricksOK (g.handle_input l r p e now) := by
  apply handle_input_cases g l r p e now bricksOK
  · exact fun b hb => initBricks_live b hb
  · intro dx st rd hdx
    exact h

/-- Every reachable state has all its bricks at health 1. -/
theorem reachable_bricksOK (g : Game) (h : Reachable g) : bricksOK g := by
  induction h with
  | new now => exact fun b hb => initBricks_live b hb
  | step hg hs ih =>
    cases hs with
    | input l r p e now => exact bricksOK_input _ l r p e now ih
    | physics dt now s2 => exact bricksOK_physics _ dt now s2 ih

/-- C9: every brick present in a reachable state has health between 1 and 5,
so indexing the 6-entry palettes with it is in bounds and the resolver only
ever decrements a strictly positive health. -/
theorem C9_brick_health_in_range (g : Game) (h : Reachable g) (b : Brick)
    (hb : b ∈ g.bricks) :
    1 ≤ b.live ∧ b.live ≤ 5 := by
  have h1 := reachable_bricksOK g h b hb
  omega

/-- Witness for C9 at the first brick of the initial grid. -/
theorem C9_witness : 1 ≤ bFirst.live ∧ bFirst.live ≤ 5 :=
  C9_brick_health_in_range (Game.new 0) (Reachable.new 0) bFirst
    (by
      show bFirst ∈ initBricks
      unfold initBricks
      simp only [List.mem_flatten, List.mem_map, List.mem_range]
      refine ⟨_, ⟨0, by norm_num, rfl⟩, ?_⟩
      simp only [List.mem_map, List.mem_range]
      exact ⟨0, by norm_num, rfl⟩)
